import Mathlib

/-
  Verification development for the legal-document chunking pipeline
  (single source file `app.py`).

  The embedding works over `List Char` as the model of Python `str`
  (a Python string is a sequence of Unicode code points).  Python ints
  are modelled by `Int`/`Nat`; the float thresholds `chunk_size * 0.7`
  and `chunk_size * 0.3` are modelled by the exact rational comparisons
  `10 * bp > 7 * chunkSize` and `10 * rem < 3 * chunkSize`.
  Fallible code (the `max()` of an empty sequence raising `ValueError`,
  and the unbounded `while` loop) is modelled by an explicit result type
  `ChunkResult` with a `valueError` constructor and a fuel-exhaustion
  constructor `fuelOut`; the chunker bakes in fuel `length + 1`, which is
  enough for every terminating run of the loop.
-/

namespace ChunckModelos

/-- Python whitespace characters recognised by `str.strip()` / `\s`
(ASCII subset; exotic Unicode spaces do not occur in this development). -/
def pyIsSpace (c : Char) : Bool :=
  c == ' ' || c == '\t' || c == '\n' || c == '\r' || c == '\x0b' || c == '\x0c'

/-- Python `str.lower()` restricted to ASCII and Latin-1 letters
(the alphabets used by the patterns in `app.py`). -/
def pyLowerChar (c : Char) : Char :=
  if 'A' ≤ c ∧ c ≤ 'Z' then Char.ofNat (c.toNat + 32)
  else if 0xC0 ≤ c.toNat ∧ c.toNat ≤ 0xDE ∧ c.toNat ≠ 0xD7 then Char.ofNat (c.toNat + 32)
  else c

def pyLowerList (l : List Char) : List Char := l.map pyLowerChar

/-- Python `str.strip()` (leading and trailing whitespace removed). -/
def pyStrip (l : List Char) : List Char :=
  ((l.dropWhile pyIsSpace).reverse.dropWhile pyIsSpace).reverse

/-- Effective index of a Python slice bound: negative indices count from
the end and are clamped at 0, positive ones are clamped at the length. -/
def pyIdx (n : Nat) (i : Int) : Nat :=
  if i < 0 then ((n : Int) + i).toNat else min i.toNat n

/-- Python slice `l[i:j]`. -/
def pySlice (l : List Char) (i j : Int) : List Char :=
  (l.take (pyIdx l.length j)).drop (pyIdx l.length i)

/-- Python `str.rfind(single_char)`: index of the last occurrence, `-1` if absent. -/
def rfindChar : List Char → Char → Int
  | [], _ => -1
  | x :: xs, c =>
    let r := rfindChar xs c
    if 0 ≤ r then r + 1 else if x == c then 0 else -1

/-- Python `str.find(needle)` as an `Option`: index of the first occurrence. -/
def findSub : List Char → List Char → Option Nat
  | [], needle => if needle.isEmpty then some 0 else none
  | h :: t, needle =>
    if needle.isPrefixOf (h :: t) then some 0
    else (findSub t needle).map (fun k => k + 1)

/-- Python `max(list)` (None for the empty list, where Python raises `ValueError`). -/
def listMax : List Int → Option Int
  | [] => none
  | x :: xs => some (xs.foldl max x)

/-- Python `text.split('\n')`. -/
def splitNL : List Char → List (List Char)
  | [] => [[]]
  | c :: t =>
    if c == '\n' then [] :: splitNL t
    else
      match splitNL t with
      | [] => [[c]]
      | h :: hs => (c :: h) :: hs

/-- Python `str.split()` helper (accumulator holds the current word reversed). -/
def pySplitWsAux : List Char → List Char → List (List Char)
  | [], cur => if cur.isEmpty then [] else [cur.reverse]
  | c :: t, cur =>
    if pyIsSpace c then
      if cur.isEmpty then pySplitWsAux t [] else cur.reverse :: pySplitWsAux t []
    else pySplitWsAux t (c :: cur)

/-- Python `str.split()` (split on whitespace runs, no empty tokens). -/
def pySplitWs (l : List Char) : List (List Char) := pySplitWsAux l []

/-- Structural-division types used in `app.py`. -/
inductive ChapterType
  | CAPITULO | SECAO | SUBSECAO | ARTIGO | DISPOSITIVO | FUNDAMENTACAO | TITULO | DOCUMENTO
deriving DecidableEq, Repr

/-- A detected structural division (`chapter` dict in `app.py`).
`actualTitle` models the `actual_title` key added by the validation step
(empty for divisions from the rule-based fallback). -/
structure Chapter where
  title : List Char
  ctype : ChapterType
  level : Nat
  startPosition : Nat
  preview : List Char
  actualTitle : List Char
deriving DecidableEq, Repr

/-- A chunk record as built by `LegalDocumentChunker._create_chunks_for_chapter`. -/
structure Chunk where
  chunkIndex : Nat
  content : List Char
  chunkSize : Nat
  startPos : Int
  endPos : Int
  overlapSize : Nat
  chapterTitle : List Char
  chapterType : ChapterType
  chapterLevel : Nat
  absStart : Int
  absEnd : Int
  isChapterComplete : Bool
deriving DecidableEq, Repr

/-- Constructor arguments of `LegalDocumentChunker`. -/
structure ChunkerCfg where
  chunkSize : Nat
  overlap : Nat
deriving DecidableEq, Repr

/-- Result of running the chunker: a normal return, the `ValueError`
raised by `max()` on an empty sequence, or fuel exhaustion (the model's
representation of a non-terminating `while` loop). -/
inductive ChunkResult
  | ok (chunks : List Chunk)
  | valueError
  | fuelOut
deriving DecidableEq, Repr

/-- The five `rfind` break candidates probed by the hierarchy-aware chunker
(sentence stop, semicolon, colon, newline, space), in source order. -/
def breakCandidateList (window : List Char) : List Int :=
  [rfindChar window '.', rfindChar window ';', rfindChar window ':',
   rfindChar window '\n', rfindChar window ' ']

/-- One boundary computation of the per-chapter loop: clamp the tentative
boundary at `start + chunk_size`, and if it is not the text end, snap to the
best break candidate strictly past 70% of `chunk_size`.  `none` models the
`ValueError` raised by `max([])` when no candidate qualifies. -/
def computeEnd (cfg : ChunkerCfg) (ct : List Char) (start : Int) : Option Int :=
  let clamped := min (start + (cfg.chunkSize : Int)) (ct.length : Int)
  if clamped < (ct.length : Int) then
    let window := pySlice ct start clamped
    let qualified := (breakCandidateList window).filter
      (fun bp => 10 * bp > 7 * (cfg.chunkSize : Int))
    match listMax qualified with
    | none => none
    | some best => some (if 0 < best then start + best + 1 else clamped)
  else some clamped

/-- The chunk record appended by one iteration of the per-chapter loop:
content is the (stripped) slice `chapter_text[start:stop]`, offsets are kept
unstripped, absolute offsets add the chapter's document offset. -/
def mkLoopChunk (cfg : ChunkerCfg) (ct : List Char) (info : Chapter) (chapStart : Int)
    (start stop : Int) (idx : Nat) : Chunk :=
  let stripped := pyStrip (pySlice ct start stop)
  { chunkIndex := idx, content := stripped, chunkSize := stripped.length,
    startPos := start, endPos := stop,
    overlapSize := if 0 < idx then cfg.overlap else 0,
    chapterTitle := info.title, chapterType := info.ctype,
    chapterLevel := info.level,
    absStart := chapStart + start, absEnd := chapStart + stop,
    isChapterComplete := false }

/-- The `while start < len(chapter_text)` loop of
`_create_chunks_for_chapter`, with explicit fuel. -/
def chunkLoop (cfg : ChunkerCfg) (ct : List Char) (info : Chapter) (chapStart : Int) :
    Nat → Int → Nat → ChunkResult
  | 0, _, _ => .fuelOut
  | fuel + 1, start, idx =>
    if start < (ct.length : Int) then
      match computeEnd cfg ct start with
      | none => .valueError
      | some stop =>
        if 10 * ((ct.length : Int) - (stop - (cfg.overlap : Int))) <
            3 * (cfg.chunkSize : Int) then
          .ok [mkLoopChunk cfg ct info chapStart start stop idx]
        else
          match chunkLoop cfg ct info chapStart fuel (stop - (cfg.overlap : Int)) (idx + 1) with
          | .ok rest => .ok (mkLoopChunk cfg ct info chapStart start stop idx :: rest)
          | .valueError => .valueError
          | .fuelOut => .fuelOut
    else .ok []

/-- `LegalDocumentChunker._create_chunks_for_chapter`. -/
def chunksForChapter (cfg : ChunkerCfg) (ct : List Char) (info : Chapter)
    (chapStart chapEnd : Int) : ChunkResult :=
  if ct.length ≤ cfg.chunkSize then
    .ok [{ chunkIndex := 0, content := ct, chunkSize := ct.length,
           startPos := 0, endPos := (ct.length : Int), overlapSize := 0,
           chapterTitle := info.title, chapterType := info.ctype,
           chapterLevel := info.level,
           absStart := chapStart, absEnd := chapEnd, isChapterComplete := true }]
  else chunkLoop cfg ct info chapStart (ct.length + 1) 0 0

/-- End offset of the current chapter's span: the next chapter's start, or
the document length when the current chapter is the last one. -/
def spanEndOf (textLen : Nat) : List Chapter → Nat
  | [] => textLen
  | nxt :: _ => nxt.startPosition

/-- The per-chapter iteration of `create_chapter_chunks`: each chapter's
span ends at the next chapter's start (or the document end). -/
def chapterChunksGo (cfg : ChunkerCfg) (text : List Char) : List Chapter → ChunkResult
  | [] => .ok []
  | ch :: rest =>
    let chapEnd : Nat := spanEndOf text.length rest
    let chapterText := pyStrip (pySlice text (ch.startPosition : Int) (chapEnd : Int))
    if chapterText.isEmpty then chapterChunksGo cfg text rest
    else
      match chunksForChapter cfg chapterText ch (ch.startPosition : Int) (chapEnd : Int) with
      | .ok l1 =>
        match chapterChunksGo cfg text rest with
        | .ok l2 => .ok (l1 ++ l2)
        | .valueError => .valueError
        | .fuelOut => .fuelOut
      | .valueError => .valueError
      | .fuelOut => .fuelOut

/-- `LegalDocumentChunker.create_chapter_chunks`: with no detected chapters the
whole text is treated as one synthetic DOCUMENTO chapter. -/
def createChapterChunks (cfg : ChunkerCfg) (text : List Char) (chapters : List Chapter) :
    ChunkResult :=
  match chapters with
  | [] =>
    chunksForChapter cfg text
      { title := "DOCUMENTO COMPLETO".data, ctype := .DOCUMENTO, level := 1,
        startPosition := 0, preview := [], actualTitle := [] }
      0 (text.length : Int)
  | _ :: _ => chapterChunksGo cfg text chapters

/-- The chapter spans used by `create_chapter_chunks`: each chapter paired
with its exclusive end offset (next chapter's start, or the document length). -/
def chapterSpans (textLen : Nat) : List Chapter → List (Chapter × Nat)
  | [] => []
  | ch :: rest => (ch, spanEndOf textLen rest) :: chapterSpans textLen rest

/-- Roman-numeral characters of the `(?i)[IVX]+` class. -/
def isRomanChar (c : Char) : Bool :=
  c == 'i' || c == 'v' || c == 'x' || c == 'I' || c == 'V' || c == 'X'

/-- The `[\s\-–—]*` separator class between a heading number and its caption. -/
def isSepChar (c : Char) : Bool :=
  pyIsSpace c || c == '-' || c == '–' || c == '—'

/-- Case-insensitive literal prefix: `pat` must be given lowercased; on success
returns the consumed original characters and the remainder. -/
def stripHeadCI (pat : List Char) (l : List Char) : Option (List Char × List Char) :=
  if decide (pat.length ≤ l.length) && (pyLowerList (l.take pat.length) == pat) then
    some (l.take pat.length, l.drop pat.length)
  else none

/-- The lazy trailing group `(.{0,N}?)(?=\n|\r|$)`: the characters up to the
first newline/carriage return (or the end), provided they number at most
`limit`.  `.` does not cross a newline, so a longer remainder cannot match. -/
def tailGroup (limit : Nat) (rest : List Char) : Option (List Char) :=
  let g := rest.takeWhile (fun c => !(c == '\n' || c == '\r'))
  if g.length ≤ limit then some g else none

/-- Shared shape of the numbered-heading patterns
`(?i)^(KW\.?\s+[IVX]+|KW\.?\s+\d+)[\s\-–—]*(.{0,100}?)(?=\n|\r|$)`:
keyword, optional dot (only when `allowDot`), mandatory whitespace, a roman
run (only when `allowRoman`) or else a digit run, the separator class, then
the captioned group-2 remainder.  Returns (group 1, group 2). -/
def matchNumberedHeading (kw : List Char) (allowDot allowRoman : Bool) (l : List Char) :
    Option (List Char × List Char) :=
  match stripHeadCI kw l with
  | none => none
  | some (h, r0) =>
    let dp : List Char × List Char :=
      if allowDot then
        match r0 with
        | '.' :: t => ([('.' : Char)], t)
        | _ => ([], r0)
      else ([], r0)
    let ws := dp.2.takeWhile pyIsSpace
    let r2 := dp.2.dropWhile pyIsSpace
    if ws.isEmpty then none
    else
      let rom := if allowRoman then r2.takeWhile isRomanChar else []
      if !rom.isEmpty then
        let r4 := (r2.drop rom.length).dropWhile isSepChar
        (tailGroup 100 r4).map (fun g2 => (h ++ dp.1 ++ ws ++ rom, g2))
      else
        let dig := r2.takeWhile Char.isDigit
        if dig.isEmpty then none
        else
          let r4 := (r2.drop dig.length).dropWhile isSepChar
          (tailGroup 100 r4).map (fun g2 => (h ++ dp.1 ++ ws ++ dig, g2))

/-- Article pattern `(?i)^(ART\.?\s+\d+|ARTIGO\s+\d+)...`, first alternative first. -/
def matchArtigo (l : List Char) : Option (List Char × List Char) :=
  (matchNumberedHeading "art".data true false l) <|>
  (matchNumberedHeading "artigo".data false false l)

/-- Special-provision pattern
`(?i)^(DISPOSIÇÕES?\s+GERAIS|DISPOSIÇÕES?\s+FINAIS|DISPOSIÇÕES?\s+TRANSITÓRIAS)(.{0,50}?)...`. -/
def matchDisposicoes (l : List Char) : Option (List Char × List Char) :=
  match stripHeadCI "disposiçõe".data l with
  | none => none
  | some (h, r0) =>
    let sp : List Char × List Char :=
      match r0 with
      | c :: t => if pyLowerChar c == 's' then ([c], t) else ([], r0)
      | [] => ([], r0)
    let ws := sp.2.takeWhile pyIsSpace
    let r2 := sp.2.dropWhile pyIsSpace
    if ws.isEmpty then none
    else
      match stripHeadCI "gerais".data r2 with
      | some (k, r3) => (tailGroup 50 r3).map (fun g2 => (h ++ sp.1 ++ ws ++ k, g2))
      | none =>
        match stripHeadCI "finais".data r2 with
        | some (k, r3) => (tailGroup 50 r3).map (fun g2 => (h ++ sp.1 ++ ws ++ k, g2))
        | none =>
          match stripHeadCI "transitórias".data r2 with
          | some (k, r3) => (tailGroup 50 r3).map (fun g2 => (h ++ sp.1 ++ ws ++ k, g2))
          | none => none

/-- Keyword alternation patterns `(?i)^(KW1|KW2|KW3)(.{0,50}?)(?=\n|\r|$)`
(the keywords are pairwise non-prefixes of one another). -/
def matchKeywordList (kws : List (List Char)) (limit : Nat) (l : List Char) :
    Option (List Char × List Char) :=
  match kws with
  | [] => none
  | kw :: rest =>
    match stripHeadCI kw l with
    | some (h, r0) => (tailGroup limit r0).map (fun g2 => (h, g2))
    | none => matchKeywordList rest limit l

/-- Character class `[A-ZÁÉÍÓÚÂÊÎÔÛÀÈÌÒÙÃÕÇ\s]` of the generic
all-uppercase-title pattern (case-sensitive: no inline `(?i)` flag). -/
def tituloClass (c : Char) : Bool :=
  (decide ('A' ≤ c) && decide (c ≤ 'Z')) || "ÁÉÍÓÚÂÊÎÔÛÀÈÌÒÙÃÕÇ".data.contains c ||
    pyIsSpace c

/-- Lookahead `(?=\n|\r|$)` at position `p` of `l`. -/
def tituloLookB (l : List Char) (p : Nat) : Bool :=
  match l.drop p with
  | [] => true
  | c :: _ => c == '\n' || c == '\r'

/-- Greedy backtracking search for `{10,80}` followed by the lookahead:
largest match length in `[10, hi]` whose following position satisfies it. -/
def tituloSearch (l : List Char) : Nat → Option Nat
  | 0 => none
  | p + 1 =>
    if p + 1 < 10 then none
    else if tituloLookB l (p + 1) then some (p + 1) else tituloSearch l p

/-- Generic uppercase-title pattern `^([A-Z...\s]{10,80})(?=\n|\r|$)`
(single capture group). -/
def matchTitulo (l : List Char) : Option (List Char) :=
  let run := (l.takeWhile tituloClass).length
  (tituloSearch l (min run 80)).map (fun p => l.take p)

/-- Title assembly: `group(1)`, plus `" " + group(2).strip()` when group 2 is
non-empty, the whole then stripped. -/
def mkTitle (g1 g2 : List Char) : List Char :=
  pyStrip (g1 ++ (if g2.isEmpty then [] else ' ' :: pyStrip g2))

/-- First matching pattern of the fallback table, in source order; yields
(title, division type, hierarchy level). -/
def tryPatterns (line : List Char) : Option (List Char × ChapterType × Nat) :=
  ((matchNumberedHeading "capítulo".data false true line).map
    (fun p => (mkTitle p.1 p.2, ChapterType.CAPITULO, 1))) <|>
  ((matchNumberedHeading "cap".data true true line).map
    (fun p => (mkTitle p.1 p.2, ChapterType.CAPITULO, 1))) <|>
  ((matchNumberedHeading "seção".data false true line).map
    (fun p => (mkTitle p.1 p.2, ChapterType.SECAO, 2))) <|>
  ((matchNumberedHeading "seç".data true true line).map
    (fun p => (mkTitle p.1 p.2, ChapterType.SECAO, 2))) <|>
  ((matchArtigo line).map
    (fun p => (mkTitle p.1 p.2, ChapterType.ARTIGO, 3))) <|>
  ((matchDisposicoes line).map
    (fun p => (mkTitle p.1 p.2, ChapterType.DISPOSITIVO, 1))) <|>
  ((matchKeywordList ["considerando".data, "fundamentação".data, "motivação".data] 50 line).map
    (fun p => (mkTitle p.1 p.2, ChapterType.FUNDAMENTACAO, 1))) <|>
  ((matchKeywordList ["dispositivo".data, "conclusão".data, "decisão".data] 50 line).map
    (fun p => (mkTitle p.1 p.2, ChapterType.DISPOSITIVO, 1))) <|>
  ((matchTitulo line).map (fun g1 => (pyStrip g1, ChapterType.TITULO, 2)))

/-- The near-duplicate test of the fallback detector: some already-recorded
division starts within 50 characters of the candidate offset. -/
def nearExisting (chs : List Chapter) (pos : Nat) : Bool :=
  chs.any (fun ch => decide (((ch.startPosition : Int) - (pos : Int)).natAbs < 50))

/-- Append a candidate division unless an already-recorded one lies within
50 characters of it. -/
def dedupAdd (chs : List Chapter) (c : Chapter) : List Chapter :=
  if nearExisting chs c.startPosition then chs else chs ++ [c]

/-- Stable insertion by `start_position` (keeps earlier elements first on ties,
like Python's stable `list.sort`). -/
def insertByStart (c : Chapter) : List Chapter → List Chapter
  | [] => [c]
  | x :: xs =>
    if c.startPosition ≤ x.startPosition then c :: x :: xs else x :: insertByStart c xs

/-- `chapters.sort(key=lambda x: x['start_position'])`. -/
def sortByStart : List Chapter → List Chapter
  | [] => []
  | x :: xs => insertByStart x (sortByStart xs)

/-- The line scan of `_fallback_chapter_detection`: strip each line, skip
blank ones, match the pattern table, and record the division at the line's
absolute offset unless deduplicated away. -/
def fallbackGo : List (List Char) → Nat → List Chapter → List Chapter
  | [], _, acc => acc
  | line :: rest, offset, acc =>
    let s := pyStrip line
    let acc2 :=
      if s.isEmpty then acc
      else
        match tryPatterns s with
        | none => acc
        | some (title, t, lv) =>
          dedupAdd acc
            { title := title, ctype := t, level := lv, startPosition := offset,
              preview := s.take 200, actualTitle := [] }
    fallbackGo rest (offset + line.length + 1) acc2

/-- `LegalDocumentChapterDetector._fallback_chapter_detection`. -/
def fallbackChapterDetection (text : List Char) : List Chapter :=
  sortByStart (fallbackGo (splitNL text) 0 [])

/-- Word characters of `\w` (ASCII alphanumerics, underscore, Latin-1 letters). -/
def pyIsWordChar (c : Char) : Bool :=
  c.isAlphanum || c == '_' ||
    (decide (0xC0 ≤ c.toNat) && decide (c.toNat ≤ 0xFF) &&
      !(c.toNat == 0xD7) && !(c.toNat == 0xF7))

/-- The variation loop of `_validate_and_adjust_chapters`: first variation
that is non-empty, longer than 3 characters and found in the lowercased
document text wins. -/
def firstHit (textLower : List Char) : List (List Char) → Option Nat
  | [] => none
  | v :: vs =>
    if !v.isEmpty && decide (3 < v.length) then
      match findSub textLower v with
      | some p => some p
      | none => firstHit textLower vs
    else firstHit textLower vs

/-- Validation of one AI-detected candidate: locate its title (or a relaxed
variation of it) in the document, rewriting `start_position`, `actual_title`
and `content_preview`; `none` when no variation is found. -/
def locateChapter (textLower : List Char) (text : List Char) (ch : Chapter) :
    Option Chapter :=
  let title := pyStrip ch.title
  if title.isEmpty then none
  else
    let titleLower := pyLowerList title
    let variations : List (List Char) :=
      [titleLower,
       titleLower.filter (fun c => !(c == ' ')),
       titleLower.filter (fun c => pyIsWordChar c || pyIsSpace c),
       (pySplitWs titleLower).headD []]
    match firstHit textLower variations with
    | some p =>
      some { ch with
        startPosition := p,
        actualTitle := title,
        preview := pyStrip (pySlice text (p : Int) (min ((p : Int) + 500) (text.length : Int))) }
    | none => none

/-- `LegalDocumentChapterDetector._validate_and_adjust_chapters`. -/
def validateAndAdjustChapters (chapters : List Chapter) (text : List Char) : List Chapter :=
  sortByStart (chapters.filterMap (locateChapter (pyLowerList text) text))

/-- The fields of `file_info` consulted by `check_file_status`. -/
structure FileInfo where
  path : List Char
  fileHash : List Char
  modificationTimestamp : Int
deriving DecidableEq, Repr

/-- One `documents` row as fetched by the stored-status query. -/
structure StoredDoc where
  id : Nat
  fileHash : List Char
  modificationTimestamp : Int
  contentLength : Nat
deriving DecidableEq, Repr

/-- A database-layer error (`mysql.connector.Error`). -/
inductive DbError
  | err
deriving DecidableEq, Repr

/-- The dictionary returned by `check_file_status`. -/
structure FileStatus where
  fileExists : Bool
  needsUpdate : Bool
  documentId : Option Nat
  lastHash : Option (List Char)
  contentLength : Nat
deriving DecidableEq, Repr

/-- `LegalDatabaseManager.check_file_status`, parameterised by the outcome of
the `SELECT ... WHERE file_path = %s` query (`error` models the caught
`mysql.connector.Error`). -/
def checkFileStatus (queryResult : Except DbError (Option StoredDoc)) (f : FileInfo) :
    FileStatus :=
  match queryResult with
  | .error _ =>
    { fileExists := false, needsUpdate := true, documentId := none,
      lastHash := none, contentLength := 0 }
  | .ok none =>
    { fileExists := false, needsUpdate := true, documentId := none,
      lastHash := none, contentLength := 0 }
  | .ok (some s) =>
    { fileExists := true,
      needsUpdate :=
        !(s.fileHash == f.fileHash) ||
          decide (1 < (s.modificationTimestamp - f.modificationTimestamp).natAbs),
      documentId := some s.id,
      lastHash := some s.fileHash,
      contentLength := s.contentLength }

/-- Does any chunk of a successful result cover character index `i`
(chapter-relative, half-open spans)? -/
def coversIndex (r : ChunkResult) (i : Int) : Bool :=
  match r with
  | .ok l => l.any (fun c => decide (c.startPos ≤ i) && decide (i < c.endPos))
  | _ => false

/-- Claim C1 (code bug): on a chapter longer than `chunk_size` whose tentative
window holds no break character at all — hence none strictly past 70% of
`chunk_size` — the chunker does not fall back to the raw clamped boundary as
the spec requires: `max()` is taken over an empty sequence and the code raises
`ValueError` (modelled by `ChunkResult.valueError`).  Failing input:
`chunk_size = 10`, `overlap = 2`, chapter text = 15 × 'a'. -/
theorem chunker_crashes_without_late_break :
    chunksForChapter ⟨10, 2⟩ (List.replicate 15 'a')
      ⟨"DOC".data, .DOCUMENTO, 1, 0, [], []⟩ 0 15 = .valueError := by
  decide

/-- Claim C3 (counterexample): on empty text with no detected chapters,
`create_chapter_chunks` does not return an empty list. -/
theorem empty_input_yields_nonempty_chunk_list :
    createChapterChunks ⟨1000, 200⟩ [] [] ≠ .ok [] := by
  decide

/-- Claim C3 (amended): on empty text with no detected chapters,
`create_chapter_chunks` raises no error and returns exactly one chunk — the
synthetic DOCUMENTO chapter's single complete chunk with empty content. -/
theorem empty_input_yields_single_empty_chunk :
    createChapterChunks ⟨1000, 200⟩ [] [] =
      .ok [{ chunkIndex := 0, content := [], chunkSize := 0, startPos := 0, endPos := 0,
             overlapSize := 0, chapterTitle := "DOCUMENTO COMPLETO".data,
             chapterType := .DOCUMENTO, chapterLevel := 1, absStart := 0, absEnd := 0,
             isChapterComplete := true }] := by
  decide

/-- Claim C9: when the stored-status query raises a database error,
`check_file_status` reports `exists = false`, `needs_update = true` and no
document id — the file is treated as a brand-new document, not as a failure. -/
theorem check_file_status_error_treated_as_new (e : DbError) (f : FileInfo) :
    checkFileStatus (.error e) f =
      { fileExists := false, needsUpdate := true, documentId := none,
        lastHash := none, contentLength := 0 } := rfl

/-- Claim C5: the change decision of `check_file_status` — no stored record
gives `exists = false` and `needs_update = true`; equal fingerprints with
timestamps within 1 second give `needs_update = false`; a fingerprint
mismatch gives `needs_update = true` regardless of timestamps. -/
theorem check_file_status_change_decision (q : Except DbError (Option StoredDoc))
    (f : FileInfo) :
    (q = .ok none →
      (checkFileStatus q f).fileExists = false ∧ (checkFileStatus q f).needsUpdate = true) ∧
    (∀ s : StoredDoc, q = .ok (some s) → s.fileHash = f.fileHash →
      (s.modificationTimestamp - f.modificationTimestamp).natAbs ≤ 1 →
      (checkFileStatus q f).needsUpdate = false) ∧
    (∀ s : StoredDoc, q = .ok (some s) → s.fileHash ≠ f.fileHash →
      (checkFileStatus q f).needsUpdate = true) := by
  refine ⟨?_, ?_, ?_⟩
  · rintro rfl; exact ⟨rfl, rfl⟩
  · rintro s rfl hh ht
    simp [checkFileStatus, hh]
    omega
  · rintro s rfl hh
    simp [checkFileStatus, hh]

/-- Claim C5 witness: concrete instances of the three scenarios. -/
theorem check_file_status_change_decision_witness :
    ((checkFileStatus (.ok none) ⟨"p".data, "h".data, 100⟩).fileExists = false ∧
      (checkFileStatus (.ok none) ⟨"p".data, "h".data, 100⟩).needsUpdate = true) ∧
    (checkFileStatus (.ok (some ⟨7, "h".data, 100, 5⟩)) ⟨"p".data, "h".data, 101⟩).needsUpdate
        = false ∧
    (checkFileStatus (.ok (some ⟨7, "h".data, 100, 5⟩)) ⟨"p".data, "g".data, 100⟩).needsUpdate
        = true :=
  ⟨(check_file_status_change_decision (.ok none) ⟨"p".data, "h".data, 100⟩).1 rfl,
   (check_file_status_change_decision (.ok (some ⟨7, "h".data, 100, 5⟩))
      ⟨"p".data, "h".data, 101⟩).2.1 ⟨7, "h".data, 100, 5⟩ rfl rfl (by decide),
   (check_file_status_change_decision (.ok (some ⟨7, "h".data, 100, 5⟩))
      ⟨"p".data, "g".data, 100⟩).2.2 ⟨7, "h".data, 100, 5⟩ rfl (by decide)⟩

/-- Claim C6: in the fallback detector's deduplication, a pair of candidate
divisions at most 49 characters apart collapses to the first-recorded one,
while a pair exactly 51 characters apart survives whole. -/
theorem dedup_pair_rule (c1 c2 : Chapter) :
    (((c1.startPosition : Int) - (c2.startPosition : Int)).natAbs ≤ 49 →
      List.foldl dedupAdd [] [c1, c2] = [c1]) ∧
    (((c1.startPosition : Int) - (c2.startPosition : Int)).natAbs = 51 →
      List.foldl dedupAdd [] [c1, c2] = [c1, c2]) := by
  constructor
  · intro h
    simp [dedupAdd, nearExisting]
    omega
  · intro h
    simp [dedupAdd, nearExisting]
    omega

/-- Claim C6 witness: offsets 0 and 29 collapse; offsets 0 and 51 both survive. -/
theorem dedup_pair_rule_witness :
    List.foldl dedupAdd []
        [⟨"A".data, .CAPITULO, 1, 0, [], []⟩, ⟨"B".data, .CAPITULO, 1, 29, [], []⟩] =
      [⟨"A".data, .CAPITULO, 1, 0, [], []⟩] ∧
    List.foldl dedupAdd []
        [⟨"A".data, .CAPITULO, 1, 0, [], []⟩, ⟨"C".data, .CAPITULO, 1, 51, [], []⟩] =
      [⟨"A".data, .CAPITULO, 1, 0, [], []⟩, ⟨"C".data, .CAPITULO, 1, 51, [], []⟩] :=
  ⟨(dedup_pair_rule ⟨"A".data, .CAPITULO, 1, 0, [], []⟩
      ⟨"B".data, .CAPITULO, 1, 29, [], []⟩).1 (by decide),
   (dedup_pair_rule ⟨"A".data, .CAPITULO, 1, 0, [], []⟩
      ⟨"C".data, .CAPITULO, 1, 51, [], []⟩).2 (by decide)⟩

/-- The end-to-end example text of the spec. -/
def exampleTwoChapters : List Char :=
  "CAPÍTULO I\nIntro text here.\n\nCAPÍTULO II\nMore text.".data

/-- Claim C4 (counterexample): on the spec's example text the rule-based
fallback detector does not return two divisions — the second 'CAPÍTULO' line
starts only 29 characters after the first and is removed by the 50-character
deduplication, leaving a single division. -/
theorem fallback_example_detects_single_division :
    (fallbackChapterDetection exampleTwoChapters).length = 1 ∧
    (fallbackChapterDetection exampleTwoChapters).length ≠ 2 := by
  constructor
  · decide
  · decide

/-- Claim C4 (amended): on the spec's example text the fallback detector
returns exactly one division of type CAPITULO at offset 0 (the second heading,
29 characters later, is suppressed by the 50-character deduplication), and
hierarchy-aware chunking with a chunk size exceeding the text length yields
exactly one chunk covering the whole text with `is_chapter_complete = true`. -/
theorem fallback_example_one_division_one_complete_chunk :
    fallbackChapterDetection exampleTwoChapters =
      [{ title := "CAPÍTULO I".data, ctype := .CAPITULO, level := 1, startPosition := 0,
         preview := "CAPÍTULO I".data, actualTitle := [] }] ∧
    createChapterChunks ⟨1000, 200⟩ exampleTwoChapters
        (fallbackChapterDetection exampleTwoChapters) =
      .ok [{ chunkIndex := 0, content := exampleTwoChapters, chunkSize := 51,
             startPos := 0, endPos := 51, overlapSize := 0,
             chapterTitle := "CAPÍTULO I".data, chapterType := .CAPITULO,
             chapterLevel := 1, absStart := 0, absEnd := 51,
             isChapterComplete := true }] := by
  constructor
  · decide
  · decide

/-- Claim C2 (counterexample): chapter text of 11 characters with chunk size
10 and overlap 0 — after the first chunk `[0, 9)` is emitted the remaining
untaken text (2 characters) is shorter than 30% of the chunk size, the loop
stops, and character index 10 of the chapter is covered by no emitted chunk:
the remainder is dropped, not absorbed into the last chunk. -/
theorem chunk_early_stop_drops_uncovered_tail :
    chunksForChapter ⟨10, 0⟩ "aaaaaaaa.ab".data ⟨"T".data, .DOCUMENTO, 1, 0, [], []⟩ 0 11 =
      .ok [⟨0, "aaaaaaaa.".data, 9, 0, 9, 0, "T".data, .DOCUMENTO, 1, 0, 9, false⟩] ∧
    ("aaaaaaaa.ab".data.length = 11) ∧
    coversIndex
      (chunksForChapter ⟨10, 0⟩ "aaaaaaaa.ab".data ⟨"T".data, .DOCUMENTO, 1, 0, [], []⟩ 0 11)
      10 = false := by
  refine ⟨by decide, by decide, by decide⟩

/-- Claim C7 (counterexample): a candidate whose non-empty title "LEI" occurs
verbatim at position 0 of the document is nonetheless dropped by the
validation step, because the length-greater-than-3 guard is applied to every
search variation, including the verbatim title. -/
theorem validate_drops_short_verbatim_title :
    validateAndAdjustChapters [⟨"LEI".data, .TITULO, 2, 0, [], []⟩] "LEI DE TESTE".data
        = [] ∧
    pyStrip ("LEI".data) ≠ [] ∧
    findSub (pyLowerList "LEI DE TESTE".data) (pyLowerList (pyStrip "LEI".data)) =
      some 0 := by
  refine ⟨by decide, by decide, by decide⟩

theorem pyIdx_le (n : Nat) (i : Int) : pyIdx n i ≤ n := by
  unfold pyIdx
  split
  · omega
  · exact Nat.min_le_right _ _

theorem pySlice_length (l : List Char) (i j : Int) :
    (pySlice l i j).length = pyIdx l.length j - pyIdx l.length i := by
  unfold pySlice
  rw [List.length_drop, List.length_take]
  have := pyIdx_le l.length j
  omega

theorem rfindChar_bounds (l : List Char) (c : Char) :
    -1 ≤ rfindChar l c ∧ rfindChar l c < (l.length : Int) := by
  induction l with
  | nil => simp [rfindChar]
  | cons x xs ih =>
    obtain ⟨ih1, ih2⟩ := ih
    simp only [rfindChar, List.length_cons]
    split
    · omega
    · split
      · omega
      · omega

theorem break_candidate_bounds {w : List Char} {bp : Int}
    (h : bp ∈ breakCandidateList w) : -1 ≤ bp ∧ bp < (w.length : Int) := by
  simp only [breakCandidateList, List.mem_cons, List.not_mem_nil, or_false] at h
  rcases h with h | h | h | h | h <;> subst h <;> exact rfindChar_bounds w _

theorem foldl_max_mem (xs : List Int) (x : Int) :
    xs.foldl max x = x ∨ xs.foldl max x ∈ xs := by
  induction xs generalizing x with
  | nil => exact Or.inl rfl
  | cons y ys ih =>
    rw [List.foldl_cons]
    rcases ih (max x y) with h | h
    · rw [h]
      rcases max_choice x y with h2 | h2
      · exact Or.inl h2
      · rw [h2]; exact Or.inr (List.mem_cons_self y ys)
    · exact Or.inr (List.mem_cons_of_mem y h)

theorem listMax_mem {l : List Int} {m : Int} (h : listMax l = some m) : m ∈ l := by
  cases l with
  | nil => simp [listMax] at h
  | cons x xs =>
    simp only [listMax, Option.some.injEq] at h
    subst h
    rcases foldl_max_mem xs x with h | h
    · rw [h]; exact List.mem_cons_self x xs
    · exact List.mem_cons_of_mem x h

/-- Characterisation of a successful boundary computation: either the clamped
boundary already reaches the text end (no snap), or some break candidate
strictly past 70% of the chunk size is selected and the boundary snaps to it. -/
theorem computeEnd_cases (cfg : ChunkerCfg) (ct : List Char) (start stop : Int)
    (h : computeEnd cfg ct start = some stop) :
    (¬ min (start + (cfg.chunkSize : Int)) (ct.length : Int) < (ct.length : Int) ∧
      stop = min (start + (cfg.chunkSize : Int)) (ct.length : Int)) ∨
    (min (start + (cfg.chunkSize : Int)) (ct.length : Int) < (ct.length : Int) ∧
      ∃ best ∈ breakCandidateList
          (pySlice ct start (min (start + (cfg.chunkSize : Int)) (ct.length : Int))),
        10 * best > 7 * (cfg.chunkSize : Int) ∧ stop = start + best + 1) := by
  unfold computeEnd at h
  by_cases hcl : min (start + (cfg.chunkSize : Int)) (ct.length : Int) < (ct.length : Int)
  · rw [if_pos hcl] at h
    dsimp only at h
    right
    refine ⟨hcl, ?_⟩
    cases hm : listMax (List.filter (fun bp => decide (10 * bp > 7 * (cfg.chunkSize : Int)))
        (breakCandidateList
          (pySlice ct start (min (start + (cfg.chunkSize : Int)) (ct.length : Int))))) with
    | none => rw [hm] at h; exact absurd h (by simp)
    | some best =>
      rw [hm] at h
      dsimp only at h
      have hmem := listMax_mem hm
      rw [List.mem_filter] at hmem
      have hgt : 10 * best > 7 * (cfg.chunkSize : Int) := by
        have := hmem.2
        simpa using this
      have hcs : (0 : Int) ≤ (cfg.chunkSize : Int) := Int.ofNat_nonneg _
      have hpos : 0 < best := by omega
      rw [if_pos hpos] at h
      exact ⟨best, hmem.1, hgt, (Option.some.injEq _ _).mp h |>.symm⟩
  · rw [if_neg hcl] at h
    exact Or.inl ⟨hcl, ((Option.some.injEq _ _).mp h).symm⟩

/-- For a loop state with `0 ≤ start < length`, a successful boundary is at
most the text length. -/
theorem computeEnd_le (cfg : ChunkerCfg) (ct : List Char) {start stop : Int}
    (hs : 0 ≤ start) (hlt : start < (ct.length : Int))
    (h : computeEnd cfg ct start = some stop) : stop ≤ (ct.length : Int) := by
  rcases computeEnd_cases cfg ct start stop h with ⟨_, rfl⟩ | ⟨hcl, best, hmem, hgt, rfl⟩
  · exact min_le_right _ _
  · have hb := (break_candidate_bounds hmem).2
    rw [pySlice_length] at hb
    unfold pyIdx at hb
    have hcs : (0 : Int) ≤ (cfg.chunkSize : Int) := Int.ofNat_nonneg _
    split_ifs at hb <;> omega

/-- A boundary that stops short of the text end advances the window start by
strictly more than 70% of the chunk size. -/
theorem computeEnd_advances (cfg : ChunkerCfg) (ct : List Char) {start stop : Int}
    (h : computeEnd cfg ct start = some stop) (hlt : stop < (ct.length : Int)) :
    10 * (stop - start) > 7 * (cfg.chunkSize : Int) := by
  rcases computeEnd_cases cfg ct start stop h with ⟨hne, rfl⟩ | ⟨hcl, best, hmem, hgt, rfl⟩
  · have := min_le_right (start + (cfg.chunkSize : Int)) (ct.length : Int)
    omega
  · omega

/-- From a negative window start (with the chapter longer than the chunk
size), a successful boundary is itself negative: the Python slice wraps
around, and the loop can never recover a non-negative state. -/
theorem computeEnd_neg (cfg : ChunkerCfg) (ct : List Char) {start stop : Int}
    (hneg : start < 0) (hlen : (cfg.chunkSize : Int) < (ct.length : Int))
    (h : computeEnd cfg ct start = some stop) : stop < 0 := by
  rcases computeEnd_cases cfg ct start stop h with ⟨hne, rfl⟩ | ⟨hcl, best, hmem, hgt, rfl⟩
  · omega
  · have hb := (break_candidate_bounds hmem).2
    rw [pySlice_length] at hb
    unfold pyIdx at hb
    have hcs : (0 : Int) ≤ (cfg.chunkSize : Int) := Int.ofNat_nonneg _
    split_ifs at hb <;> omega

theorem chunkLoop_zero (cfg : ChunkerCfg) (ct : List Char) (info : Chapter)
    (chapStart start : Int) (idx : Nat) :
    chunkLoop cfg ct info chapStart 0 start idx = .fuelOut := rfl

theorem chunkLoop_exit (cfg : ChunkerCfg) (ct : List Char) (info : Chapter)
    (chapStart : Int) (fuel : Nat) (start : Int) (idx : Nat)
    (h : ¬ start < (ct.length : Int)) :
    chunkLoop cfg ct info chapStart (fuel + 1) start idx = .ok [] := by
  simp [chunkLoop, h]

theorem chunkLoop_valueError (cfg : ChunkerCfg) (ct : List Char) (info : Chapter)
    (chapStart : Int) (fuel : Nat) (start : Int) (idx : Nat)
    (hlt : start < (ct.length : Int)) (hce : computeEnd cfg ct start = none) :
    chunkLoop cfg ct info chapStart (fuel + 1) start idx = .valueError := by
  simp [chunkLoop, hlt, hce]

theorem chunkLoop_stop (cfg : ChunkerCfg) (ct : List Char) (info : Chapter)
    (chapStart : Int) (fuel : Nat) (start : Int) (idx : Nat) (stop : Int)
    (hlt : start < (ct.length : Int)) (hce : computeEnd cfg ct start = some stop)
    (hs : 10 * ((ct.length : Int) - (stop - (cfg.overlap : Int))) <
      3 * (cfg.chunkSize : Int)) :
    chunkLoop cfg ct info chapStart (fuel + 1) start idx =
      .ok [mkLoopChunk cfg ct info chapStart start stop idx] := by
  simp [chunkLoop, hlt, hce, hs]

theorem chunkLoop_cont (cfg : ChunkerCfg) (ct : List Char) (info : Chapter)
    (chapStart : Int) (fuel : Nat) (start : Int) (idx : Nat) (stop : Int)
    (hlt : start < (ct.length : Int)) (hce : computeEnd cfg ct start = some stop)
    (hs : ¬ 10 * ((ct.length : Int) - (stop - (cfg.overlap : Int))) <
      3 * (cfg.chunkSize : Int)) :
    chunkLoop cfg ct info chapStart (fuel + 1) start idx =
      match chunkLoop cfg ct info chapStart fuel (stop - (cfg.overlap : Int)) (idx + 1) with
      | .ok rest => .ok (mkLoopChunk cfg ct info chapStart start stop idx :: rest)
      | .valueError => .valueError
      | .fuelOut => .fuelOut := by
  simp [chunkLoop, hlt, hce, hs]

/-- Claim C2 (amended): whenever the remaining untaken text after an emitted
chunk is shorter than 30% of the chunk size, the per-chapter loop stops — the
emitted chunk is the last one; the remainder is discarded rather than
becoming its own chunk (and, per the counterexample, rather than being
absorbed). -/
theorem chunk_early_stop_emits_no_further_chunk (cfg : ChunkerCfg) (ct : List Char)
    (info : Chapter) (chapStart : Int) (fuel : Nat) (start : Int) (idx : Nat)
    (c : Chunk) (rest : List Chunk)
    (h : chunkLoop cfg ct info chapStart fuel start idx = .ok (c :: rest))
    (hstop : 10 * ((ct.length : Int) - (c.endPos - (cfg.overlap : Int))) <
      3 * (cfg.chunkSize : Int)) :
    rest = [] := by
  match fuel with
  | 0 => rw [chunkLoop_zero] at h; cases h
  | fuel + 1 =>
    by_cases hlt : start < (ct.length : Int)
    · cases hce : computeEnd cfg ct start with
      | none =>
        rw [chunkLoop_valueError cfg ct info chapStart fuel start idx hlt hce] at h
        cases h
      | some stop =>
        by_cases hs : 10 * ((ct.length : Int) - (stop - (cfg.overlap : Int))) <
            3 * (cfg.chunkSize : Int)
        · rw [chunkLoop_stop cfg ct info chapStart fuel start idx stop hlt hce hs] at h
          have h2 : [mkLoopChunk cfg ct info chapStart start stop idx] = c :: rest := by
            injection h
          have := (List.cons.injEq _ _ _ _).mp h2
          exact this.2.symm
        · rw [chunkLoop_cont cfg ct info chapStart fuel start idx stop hlt hce hs] at h
          cases hrec : chunkLoop cfg ct info chapStart fuel
              (stop - (cfg.overlap : Int)) (idx + 1) with
          | ok rest2 =>
            rw [hrec] at h
            have h2 : mkLoopChunk cfg ct info chapStart start stop idx :: rest2 =
                c :: rest := by injection h
            have h3 := (List.cons.injEq _ _ _ _).mp h2
            exfalso
            apply hs
            have hend : c.endPos = stop := by rw [← h3.1]; rfl
            rw [← hend]
            exact hstop
          | valueError => rw [hrec] at h; cases h
          | fuelOut => rw [hrec] at h; cases h
    · rw [chunkLoop_exit cfg ct info chapStart fuel start idx hlt] at h
      cases h

/-- Claim C2 witness: the counterexample input instantiates the early-stop
hypothesis (remaining 2 characters, 30% of chunk size 10 is 3). -/
theorem chunk_early_stop_emits_no_further_chunk_witness :
    10 * ((("aaaaaaaa.ab".data.length : Int)) - ((9 : Int) - ((0 : Nat) : Int))) <
      3 * ((10 : Nat) : Int) ∧ ([] : List Chunk) = [] :=
  ⟨by decide,
   chunk_early_stop_emits_no_further_chunk ⟨10, 0⟩ "aaaaaaaa.ab".data
     ⟨"T".data, .DOCUMENTO, 1, 0, [], []⟩ 0 12 0 0
     ⟨0, "aaaaaaaa.".data, 9, 0, 9, 0, "T".data, .DOCUMENTO, 1, 0, 9, false⟩ []
     (by decide) (by decide)⟩

theorem mem_insertByStart (a c : Chapter) (l : List Chapter) :
    a ∈ insertByStart c l ↔ a = c ∨ a ∈ l := by
  induction l with
  | nil => simp [insertByStart]
  | cons x xs ih =>
    simp only [insertByStart]
    split
    · simp [List.mem_cons]
    · simp only [List.mem_cons, ih]
      tauto

theorem mem_sortByStart {a : Chapter} {l : List Chapter} (h : a ∈ l) :
    a ∈ sortByStart l := by
  induction l with
  | nil => cases h
  | cons x xs ih =>
    simp only [sortByStart]
    rw [mem_insertByStart]
    rcases List.mem_cons.mp h with h | h
    · exact Or.inl h
    · exact Or.inr (ih h)

/-- Claim C7 (amended): a candidate whose stripped title is longer than 3
characters and occurs verbatim in the lowercased document text is retained by
the validation step, with its start offset set to the first occurrence of the
verbatim title; the length-greater-than-3 guard applies to every search
variation, including the verbatim one (per the counterexample). -/
theorem validate_retains_verbatim_title_longer_than_three
    (chapters : List Chapter) (text : List Char) (ch : Chapter) (p : Nat)
    (hmem : ch ∈ chapters)
    (hlen : 3 < (pyLowerList (pyStrip ch.title)).length)
    (hfind : findSub (pyLowerList text) (pyLowerList (pyStrip ch.title)) = some p) :
    ∃ ch2 ∈ validateAndAdjustChapters chapters text,
      ch2.title = ch.title ∧ ch2.ctype = ch.ctype ∧ ch2.level = ch.level ∧
        ch2.startPosition = p := by
  have hv1ne : (pyLowerList (pyStrip ch.title)).isEmpty = false := by
    cases hsc : pyLowerList (pyStrip ch.title) with
    | nil => rw [hsc] at hlen; simp at hlen
    | cons a as => rfl
  have htne : (pyStrip ch.title).isEmpty = false := by
    cases hsc : pyStrip ch.title with
    | nil =>
      rw [show pyLowerList (pyStrip ch.title) = pyLowerList [] from by rw [hsc]] at hlen
      simp [pyLowerList] at hlen
    | cons a as => rfl
  have hloc : locateChapter (pyLowerList text) text ch =
      some { ch with
        startPosition := p,
        actualTitle := pyStrip ch.title,
        preview := pyStrip (pySlice text (p : Int)
          (min ((p : Int) + 500) (text.length : Int))) } := by
    simp only [locateChapter, firstHit, htne, hv1ne, hfind, Bool.not_false, Bool.true_and,
      Bool.false_eq_true, if_false, decide_eq_true hlen, if_true]
  refine ⟨{ ch with
      startPosition := p,
      actualTitle := pyStrip ch.title,
      preview := pyStrip (pySlice text (p : Int)
        (min ((p : Int) + 500) (text.length : Int))) }, ?_, rfl, rfl, rfl, rfl⟩
  unfold validateAndAdjustChapters
  exact mem_sortByStart (List.mem_filterMap.mpr ⟨ch, hmem, hloc⟩)

/-- Claim C7 witness: the candidate titled "LEIS" is located verbatim at
offset 3 of "as leis do pais" and retained there. -/
theorem validate_retains_verbatim_title_longer_than_three_witness :
    ∃ ch2 ∈ validateAndAdjustChapters [⟨"LEIS".data, .TITULO, 2, 99, [], []⟩]
        "as leis do pais".data,
      ch2.title = "LEIS".data ∧ ch2.ctype = .TITULO ∧ ch2.level = 2 ∧
        ch2.startPosition = 3 :=
  validate_retains_verbatim_title_longer_than_three
    [⟨"LEIS".data, .TITULO, 2, 99, [], []⟩] "as leis do pais".data
    ⟨"LEIS".data, .TITULO, 2, 99, [], []⟩ 3
    (by decide) (by decide) (by decide)

/-- Counterexample input for the termination claim: chunk size 10, overlap 4
(40% of the chunk size, below the claimed 70% bound), chapter text of 15
characters with a sentence stop at index 8. -/
def divergeCfg : ChunkerCfg := ⟨10, 4⟩

def divergeText : List Char := "aaaaaaaa.aaaaaa".data

def divergeInfo : Chapter := ⟨"T".data, .DOCUMENTO, 1, 0, [], []⟩

/-- Once the loop reaches window start 11 on the divergence input, every
iteration recreates the same state: the clamped boundary is the text end (15),
the early stop does not fire (remaining 4 ≥ 30% of 10), and the next start is
again 15 − 4 = 11 — the loop never terminates, whatever the fuel. -/
theorem diverge_aux (fuel : Nat) :
    ∀ idx, chunkLoop divergeCfg divergeText divergeInfo 0 fuel 11 idx = .fuelOut := by
  induction fuel with
  | zero => intro idx; rfl
  | succ n ih =>
    intro idx
    rw [chunkLoop_cont divergeCfg divergeText divergeInfo 0 n 11 idx 15
      (by decide) (by decide) (by decide)]
    have harg : (15 : Int) - (divergeCfg.overlap : Int) = 11 := by decide
    rw [harg, ih (idx + 1)]

/-- Claim C10 (counterexample): with chunk size 10 and overlap 4 — which is
positive and below 70% of the chunk size — the per-chapter loop does not
terminate on a 15-character chapter: the state with window start 11 steps to
itself forever, so the loop yields no result for any amount of fuel. -/
theorem chunk_loop_diverges_below_seventy_percent_overlap :
    0 < divergeCfg.chunkSize ∧
    10 * divergeCfg.overlap < 7 * divergeCfg.chunkSize ∧
    divergeText.length > divergeCfg.chunkSize ∧
    chunksForChapter divergeCfg divergeText divergeInfo 0 15 = .fuelOut ∧
    ∀ fuel idx, chunkLoop divergeCfg divergeText divergeInfo 0 fuel 11 idx = .fuelOut :=
  ⟨by decide, by decide, by decide, by decide, diverge_aux⟩

/-- With overlap below 30% of the chunk size, every loop iteration either
ends the loop or strictly advances, so fuel `length + 1` never runs out. -/
theorem chunkLoop_terminates (cfg : ChunkerCfg) (ct : List Char) (info : Chapter)
    (chapStart : Int) (hcs : 0 < cfg.chunkSize)
    (hov : 10 * cfg.overlap < 3 * cfg.chunkSize) :
    ∀ fuel : Nat, ∀ start : Int, ∀ idx : Nat, 0 ≤ start → start ≤ (ct.length : Int) →
      (ct.length : Int) - start < (fuel : Int) →
      chunkLoop cfg ct info chapStart fuel start idx ≠ .fuelOut := by
  intro fuel
  induction fuel with
  | zero =>
    intro start idx h0 h1 h2
    exfalso
    simp only [Nat.cast_zero] at h2
    omega
  | succ f ih =>
    intro start idx h0 h1 h2
    by_cases hlt : start < (ct.length : Int)
    · cases hce : computeEnd cfg ct start with
      | none => rw [chunkLoop_valueError _ _ _ _ _ _ _ hlt hce]; simp
      | some stop =>
        by_cases hs : 10 * ((ct.length : Int) - (stop - (cfg.overlap : Int))) <
            3 * (cfg.chunkSize : Int)
        · rw [chunkLoop_stop _ _ _ _ _ _ _ _ hlt hce hs]; simp
        · rw [chunkLoop_cont _ _ _ _ _ _ _ _ hlt hce hs]
          have hle := computeEnd_le cfg ct h0 hlt hce
          have hstopn : stop < (ct.length : Int) := by
            rcases lt_or_eq_of_le hle with hx | hx
            · exact hx
            · exfalso
              apply hs
              rw [hx]
              have hovc : ((cfg.overlap : Int)) ≥ 0 := Int.ofNat_nonneg _
              omega
          have hadv := computeEnd_advances cfg ct hce hstopn
          have hrec := ih (stop - (cfg.overlap : Int)) (idx + 1)
            (by omega) (by omega) (by push_cast at h2 ⊢; omega)
          cases hcl : chunkLoop cfg ct info chapStart f
              (stop - (cfg.overlap : Int)) (idx + 1) with
          | ok rest => simp
          | valueError => simp
          | fuelOut => exact absurd hcl hrec
    · rw [chunkLoop_exit _ _ _ _ _ _ _ hlt]; simp

/-- Claim C10 (amended): the per-chapter loop terminates for every chapter
text whenever `chunk_size > 0` and `10·overlap < 3·chunk_size` (the
early-stop threshold), a stronger precondition than the claim's
`overlap < 70%·chunk_size`; every boundary short of the chapter end still
advances the window start by strictly more than `0.7·chunk_size − overlap`,
but the final clamped boundary advances only via the 30% early stop, which
fires exactly when the overlap is below 30% of the chunk size. -/
theorem chunk_loop_terminates_below_thirty_percent_overlap
    (cfg : ChunkerCfg) (ct : List Char) (info : Chapter) (chapStart chapEnd : Int)
    (hcs : 0 < cfg.chunkSize) (hov : 10 * cfg.overlap < 3 * cfg.chunkSize) :
    (∀ start stop : Int, computeEnd cfg ct start = some stop →
      stop < (ct.length : Int) →
      10 * ((stop - (cfg.overlap : Int)) - start) >
        7 * (cfg.chunkSize : Int) - 10 * (cfg.overlap : Int)) ∧
    chunksForChapter cfg ct info chapStart chapEnd ≠ .fuelOut := by
  constructor
  · intro start stop hce hlt
    have := computeEnd_advances cfg ct hce hlt
    omega
  · unfold chunksForChapter
    split
    · simp
    · apply chunkLoop_terminates cfg ct info chapStart hcs hov (ct.length + 1) 0 0 le_rfl
        (Int.ofNat_nonneg _)
      push_cast
      omega

/-- Claim C10 witness: chunk size 10, overlap 2 (20% < 30%), 12-character
chapter — the chunker completes without exhausting its fuel. -/
theorem chunk_loop_terminates_below_thirty_percent_overlap_witness :
    0 < (10 : Nat) ∧ 10 * (2 : Nat) < 3 * 10 ∧
    chunksForChapter ⟨10, 2⟩ "aaaaaaaa.abc".data ⟨"W".data, .DOCUMENTO, 1, 0, [], []⟩ 0 12 ≠
      .fuelOut :=
  ⟨by decide, by decide,
   (chunk_loop_terminates_below_thirty_percent_overlap ⟨10, 2⟩ "aaaaaaaa.abc".data
     ⟨"W".data, .DOCUMENTO, 1, 0, [], []⟩ 0 12 (by decide) (by decide)).2⟩

/-- From a negative window start the loop can never return normally: each
step either raises the empty-`max()` `ValueError` (the wrapped Python slice
is empty or lacks a qualifying break) or recurses with a negative start
again, and neither exit condition can fire. -/
theorem chunkLoop_neg_no_ok (cfg : ChunkerCfg) (ct : List Char) (info : Chapter)
    (chapStart : Int) (hlen : (cfg.chunkSize : Int) < (ct.length : Int)) :
    ∀ fuel : Nat, ∀ start : Int, ∀ idx : Nat, start < 0 →
      ∀ l, chunkLoop cfg ct info chapStart fuel start idx ≠ .ok l := by
  intro fuel
  induction fuel with
  | zero => intro start idx hneg l; rw [chunkLoop_zero]; simp
  | succ f ih =>
    intro start idx hneg l
    have hn0 : (0 : Int) ≤ (ct.length : Int) := Int.ofNat_nonneg _
    have hlt : start < (ct.length : Int) := by omega
    cases hce : computeEnd cfg ct start with
    | none => rw [chunkLoop_valueError _ _ _ _ _ _ _ hlt hce]; simp
    | some stop =>
      have hstop : stop < 0 := computeEnd_neg cfg ct hneg hlen hce
      have hovc : (0 : Int) ≤ (cfg.overlap : Int) := Int.ofNat_nonneg _
      have hcsc : (0 : Int) ≤ (cfg.chunkSize : Int) := Int.ofNat_nonneg _
      have hs : ¬ 10 * ((ct.length : Int) - (stop - (cfg.overlap : Int))) <
          3 * (cfg.chunkSize : Int) := by omega
      rw [chunkLoop_cont _ _ _ _ _ _ _ _ hlt hce hs]
      cases hcl : chunkLoop cfg ct info chapStart f
          (stop - (cfg.overlap : Int)) (idx + 1) with
      | ok rest =>
        exact absurd hcl (ih (stop - (cfg.overlap : Int)) (idx + 1) (by omega) rest)
      | valueError => simp
      | fuelOut => simp

/-- Every chunk of a normal loop return (started at a non-negative window
start) has a non-negative relative start, a relative end within the chapter
text, and absolute offsets equal to the chapter start plus the relative ones. -/
theorem chunkLoop_ok_bounds (cfg : ChunkerCfg) (ct : List Char) (info : Chapter)
    (chapStart : Int) (hlen : (cfg.chunkSize : Int) < (ct.length : Int)) :
    ∀ fuel : Nat, ∀ start : Int, ∀ idx : Nat, 0 ≤ start →
      ∀ l, chunkLoop cfg ct info chapStart fuel start idx = .ok l →
      ∀ c ∈ l, 0 ≤ c.startPos ∧ c.endPos ≤ (ct.length : Int) ∧
        c.absStart = chapStart + c.startPos ∧ c.absEnd = chapStart + c.endPos := by
  intro fuel
  induction fuel with
  | zero => intro start idx h0 l h; rw [chunkLoop_zero] at h; cases h
  | succ f ih =>
    intro start idx h0 l h
    by_cases hlt : start < (ct.length : Int)
    · cases hce : computeEnd cfg ct start with
      | none => rw [chunkLoop_valueError _ _ _ _ _ _ _ hlt hce] at h; cases h
      | some stop =>
        have hstople := computeEnd_le cfg ct h0 hlt hce
        by_cases hs : 10 * ((ct.length : Int) - (stop - (cfg.overlap : Int))) <
            3 * (cfg.chunkSize : Int)
        · rw [chunkLoop_stop _ _ _ _ _ _ _ _ hlt hce hs] at h
          have hl : [mkLoopChunk cfg ct info chapStart start stop idx] = l := by
            injection h
          subst hl
          intro c hc
          rw [List.mem_singleton] at hc
          subst hc
          exact ⟨h0, hstople, rfl, rfl⟩
        · rw [chunkLoop_cont _ _ _ _ _ _ _ _ hlt hce hs] at h
          cases hcl : chunkLoop cfg ct info chapStart f
              (stop - (cfg.overlap : Int)) (idx + 1) with
          | ok rest =>
            rw [hcl] at h
            have hl : mkLoopChunk cfg ct info chapStart start stop idx :: rest = l := by
              injection h
            subst hl
            intro c hc
            rcases List.mem_cons.mp hc with hc | hc
            · subst hc
              exact ⟨h0, hstople, rfl, rfl⟩
            · by_cases hpos : 0 ≤ stop - (cfg.overlap : Int)
              · exact ih (stop - (cfg.overlap : Int)) (idx + 1) hpos rest hcl c hc
              · exact absurd hcl
                  (chunkLoop_neg_no_ok cfg ct info chapStart hlen f
                    (stop - (cfg.overlap : Int)) (idx + 1) (by omega) rest)
          | valueError => rw [hcl] at h; cases h
          | fuelOut => rw [hcl] at h; cases h
    · rw [chunkLoop_exit _ _ _ _ _ _ _ hlt] at h
      have hl : ([] : List Chunk) = l := by injection h
      subst hl
      intro c hc
      cases hc

/-- Every chunk of a normal `_create_chunks_for_chapter` return lies between
the chapter's absolute start and end, provided the chapter text fits in the
chapter's span. -/
theorem chunksForChapter_bounds (cfg : ChunkerCfg) (ct : List Char) (info : Chapter)
    (chapStart chapEnd : Int) (l : List Chunk)
    (h : chunksForChapter cfg ct info chapStart chapEnd = .ok l)
    (hlen : (ct.length : Int) ≤ chapEnd - chapStart) :
    ∀ c ∈ l, chapStart ≤ c.absStart ∧ c.absEnd ≤ chapEnd := by
  unfold chunksForChapter at h
  by_cases hfit : ct.length ≤ cfg.chunkSize
  · rw [if_pos hfit] at h
    cases h
    intro c hc
    rw [List.mem_singleton] at hc
    subst hc
    exact ⟨le_rfl, le_rfl⟩
  · rw [if_neg hfit] at h
    intro c hc
    have hlen2 : (cfg.chunkSize : Int) < (ct.length : Int) := by
      have : cfg.chunkSize < ct.length := by omega
      exact_mod_cast this
    have hb := chunkLoop_ok_bounds cfg ct info chapStart hlen2
      (ct.length + 1) 0 0 le_rfl l h c hc
    obtain ⟨hb1, hb2, hb3, hb4⟩ := hb
    constructor
    · rw [hb3]; omega
    · rw [hb4]; omega

theorem dropWhile_length_le (p : Char → Bool) (l : List Char) :
    (l.dropWhile p).length ≤ l.length := by
  induction l with
  | nil => simp
  | cons x xs ih =>
    rw [List.dropWhile_cons]
    split
    · exact le_trans ih (by simp)
    · simp

theorem pyStrip_length_le (l : List Char) : (pyStrip l).length ≤ l.length := by
  unfold pyStrip
  rw [List.length_reverse]
  calc ((l.dropWhile pyIsSpace).reverse.dropWhile pyIsSpace).length
      ≤ (l.dropWhile pyIsSpace).reverse.length := dropWhile_length_le _ _
    _ = (l.dropWhile pyIsSpace).length := List.length_reverse _
    _ ≤ l.length := dropWhile_length_le _ _

theorem pyIdx_ofNat (n m : Nat) : pyIdx n ((m : Nat) : Int) = min m n := by
  unfold pyIdx
  rw [if_neg (by omega)]
  simp

/-- Every chunk of a normal `chapterChunksGo` return lies inside the span of
one of the remaining chapters. -/
theorem chapterChunksGo_bounds (cfg : ChunkerCfg) (text : List Char) :
    ∀ (chs : List Chapter) (l : List Chunk),
      chapterChunksGo cfg text chs = .ok l →
      ∀ c ∈ l, ∃ p ∈ chapterSpans text.length chs,
        ((p.1.startPosition : Int) ≤ c.absStart ∧ c.absEnd ≤ (p.2 : Int)) := by
  intro chs
  induction chs with
  | nil =>
    intro l h c hc
    have hl : ([] : List Chunk) = l := by injection h
    subst hl
    cases hc
  | cons ch rest ih =>
    intro l h c hc
    simp only [chapterChunksGo] at h
    by_cases hemp : (pyStrip (pySlice text (ch.startPosition : Int)
        ((spanEndOf text.length rest : Nat) : Int))).isEmpty
    · rw [if_pos hemp] at h
      obtain ⟨p, hp, hb⟩ := ih l h c hc
      exact ⟨p, List.mem_cons_of_mem _ hp, hb⟩
    · rw [if_neg hemp] at h
      cases hc1 : chunksForChapter cfg
          (pyStrip (pySlice text (ch.startPosition : Int)
            ((spanEndOf text.length rest : Nat) : Int))) ch
          (ch.startPosition : Int) ((spanEndOf text.length rest : Nat) : Int) with
      | ok l1 =>
        rw [hc1] at h
        cases hc2 : chapterChunksGo cfg text rest with
        | ok l2 =>
          rw [hc2] at h
          have hl : l1 ++ l2 = l := by injection h
          subst hl
          rcases List.mem_append.mp hc with hc | hc
          · refine ⟨(ch, spanEndOf text.length rest), List.mem_cons_self _ _, ?_⟩
            have hne : (pyStrip (pySlice text (ch.startPosition : Int)
                ((spanEndOf text.length rest : Nat) : Int))).length ≠ 0 := by
              intro h0
              exact absurd (List.isEmpty_iff.mpr (List.length_eq_zero.mp h0)) hemp
            have hsl := pyStrip_length_le (pySlice text (ch.startPosition : Int)
              ((spanEndOf text.length rest : Nat) : Int))
            rw [pySlice_length, pyIdx_ofNat, pyIdx_ofNat] at hsl
            have hlen : ((pyStrip (pySlice text (ch.startPosition : Int)
                ((spanEndOf text.length rest : Nat) : Int))).length : Int) ≤
                ((spanEndOf text.length rest : Nat) : Int) - (ch.startPosition : Int) := by
              omega
            exact chunksForChapter_bounds cfg _ ch _ _ l1 hc1 hlen c hc
          · obtain ⟨p, hp, hb⟩ := ih l2 hc2 c hc
            exact ⟨p, List.mem_cons_of_mem _ hp, hb⟩
        | valueError => rw [hc2] at h; cases h
        | fuelOut => rw [hc2] at h; cases h
      | valueError => rw [hc1] at h; cases h
      | fuelOut => rw [hc1] at h; cases h

/-- Claim C8: for every text and offset-sorted chapter list, every chunk
emitted by the hierarchy-aware chunker lies inside the span of some chapter:
its absolute start is at least that chapter's start offset and its absolute
end is at most the next chapter's start offset (the document length for the
last chapter) — no chunk crosses a chapter boundary. -/
theorem chunks_stay_within_chapter_spans (cfg : ChunkerCfg) (text : List Char)
    (chapters : List Chapter) (l : List Chunk)
    (hsorted : List.Chain' (fun a b => a.startPosition ≤ b.startPosition) chapters)
    (hne : chapters ≠ [])
    (h : createChapterChunks cfg text chapters = .ok l) :
    ∀ c ∈ l, ∃ p ∈ chapterSpans text.length chapters,
      ((p.1.startPosition : Int) ≤ c.absStart ∧ c.absEnd ≤ (p.2 : Int)) := by
  cases chapters with
  | nil => exact absurd rfl hne
  | cons ch rest => exact chapterChunksGo_bounds cfg text (ch :: rest) l h

/-- Claim C8 witness: two sorted chapters on an 11-character text, each
producing one complete chunk that stays within its span. -/
theorem chunks_stay_within_chapter_spans_witness :
    createChapterChunks ⟨1000, 200⟩ "abcde fghij".data
        [⟨"A".data, .CAPITULO, 1, 0, [], []⟩, ⟨"B".data, .CAPITULO, 1, 6, [], []⟩] =
      .ok [⟨0, "abcde".data, 5, 0, 5, 0, "A".data, .CAPITULO, 1, 0, 6, true⟩,
           ⟨0, "fghij".data, 5, 0, 5, 0, "B".data, .CAPITULO, 1, 6, 11, true⟩] ∧
    ∀ c ∈ [(⟨0, "abcde".data, 5, 0, 5, 0, "A".data, .CAPITULO, 1, 0, 6, true⟩ : Chunk),
           ⟨0, "fghij".data, 5, 0, 5, 0, "B".data, .CAPITULO, 1, 6, 11, true⟩],
      ∃ p ∈ chapterSpans ("abcde fghij".data.length)
          [⟨"A".data, .CAPITULO, 1, 0, [], []⟩, ⟨"B".data, .CAPITULO, 1, 6, [], []⟩],
        ((p.1.startPosition : Int) ≤ c.absStart ∧ c.absEnd ≤ (p.2 : Int)) :=
  ⟨by decide,
   chunks_stay_within_chapter_spans ⟨1000, 200⟩ "abcde fghij".data
     [⟨"A".data, .CAPITULO, 1, 0, [], []⟩, ⟨"B".data, .CAPITULO, 1, 6, [], []⟩]
     [⟨0, "abcde".data, 5, 0, 5, 0, "A".data, .CAPITULO, 1, 0, 6, true⟩,
      ⟨0, "fghij".data, 5, 0, 5, 0, "B".data, .CAPITULO, 1, 6, 11, true⟩]
     (by simp [List.chain'_cons]) (by decide) (by decide)⟩

end ChunckModelos
